import Mathlib

/-!
Shallow embedding of the cares-rs DNS resolver core (src/core/packets.rs,
src/core/ares.rs, src/ffi/mod.rs, src/ffi/ares_data.rs) and proofs about the
spec-level claims.

Modelling conventions:
* wire bytes are `Nat` values; a byte produced by the code is always `< 256`
  (the Rust side types them `u8`); explicit `% 256` / `% 65536` appear exactly
  where the source performs an `as u8` / `as u16` cast;
* fallible Rust code returning `Option` is embedded as `Option`;
* `panic!` / `.unwrap()` crash paths are embedded as a distinguished
  constructor (`panicked`) or as `none` where the surrounding claim needs them;
* `&buf[off..]` slicing is `List.drop` guarded by `off ≤ buf.length`
  (the out-of-range case panics in Rust and is modelled explicitly);
* `bytes::Buf` cursors are modelled by parsers that consume a `List Nat` chunk
  and report either the remaining list or the number of consumed bytes.
-/

namespace CaresRs

/-! ## Error codes (src/ffi/error.rs, src/ffi/mod.rs) -/

def ARES_SUCCESS : Nat := 0
def ARES_ENODATA : Nat := 1
def ARES_EFORMERR : Nat := 2
def ARES_ESERVFAIL : Nat := 3
def ARES_ENOTFOUND : Nat := 4
def ARES_EBADFAMILY : Nat := 9
def ARES_ETIMEOUT : Nat := 12

/-- `libc::AF_INET` on Linux. -/
def AF_INET : Int := 2
/-- `libc::AF_INET6` on Linux. -/
def AF_INET6 : Int := 10

/-! ## Byte-level primitives (the `bytes` crate calls used by the codec)

`put_u16`/`try_get_u16` are big-endian, as in `bytes::{Buf, BufMut}`. -/

/-- `BufMut::put_u16` (big endian). The argument is a `u16` in the source, so
callers always pass a value `< 65536`; the `% 256` keeps the model total. -/
def putU16 (v : Nat) : List Nat := [v / 256 % 256, v % 256]

/-- `Buf::try_get_u8` on a chunk. -/
def getU8 : List Nat → Option (Nat × List Nat)
  | [] => none
  | b :: r => some (b, r)

/-- `Buf::try_get_u16` (big endian) on a chunk. -/
def getU16 : List Nat → Option (Nat × List Nat)
  | b0 :: b1 :: r => some (b0 * 256 + b1, r)
  | _ => none

/-- `Buf::try_get_u32` (big endian) on a chunk. -/
def getU32 : List Nat → Option (Nat × List Nat)
  | b0 :: b1 :: b2 :: b3 :: r =>
      some (b0 * 16777216 + b1 * 65536 + b2 * 256 + b3, r)
  | _ => none

/-! ## UTF-8 (Rust `String::as_bytes` / `String::from_utf8`)

The label codec stores name segments as Rust `String`s: serialization emits
their UTF-8 bytes, parsing validates bytes with `String::from_utf8`. -/

/-- UTF-8 encoding of one scalar value (`char` → bytes). -/
def utf8EncodeCp (v : Nat) : List Nat :=
  if v < 128 then [v]
  else if v < 2048 then [192 + v / 64, 128 + v % 64]
  else if v < 65536 then [224 + v / 4096, 128 + v / 64 % 64, 128 + v % 64]
  else [240 + v / 262144, 128 + v / 4096 % 64, 128 + v / 64 % 64, 128 + v % 64]

/-- `String::as_bytes` of a segment, as a byte list. -/
def strBytes (s : String) : List Nat :=
  (s.data.map (fun c => utf8EncodeCp c.toNat)).flatten

/-- One step of UTF-8 decoding (the per-character validation performed by
`String::from_utf8`): given the first byte `b` and the remaining bytes,
produces the decoded character and the rest, rejecting stray continuation
bytes (`128 ≤ x < 192` is a continuation byte), overlong forms, surrogates
and out-of-range values. -/
def utf8DecodeChar (b : Nat) (rest : List Nat) : Option (Char × List Nat) :=
  if b < 128 then some (Char.ofNat b, rest)
  else if b < 194 then none
  else if b < 224 then
    match rest with
    | b1 :: r =>
      if 128 ≤ b1 ∧ b1 < 192 then some (Char.ofNat ((b - 192) * 64 + (b1 - 128)), r)
      else none
    | [] => none
  else if b < 240 then
    match rest with
    | b1 :: b2 :: r =>
      if 128 ≤ b1 ∧ b1 < 192 ∧ 128 ≤ b2 ∧ b2 < 192
          ∧ 2048 ≤ (b - 224) * 4096 + (b1 - 128) * 64 + (b2 - 128)
          ∧ ¬ (55296 ≤ (b - 224) * 4096 + (b1 - 128) * 64 + (b2 - 128)
                ∧ (b - 224) * 4096 + (b1 - 128) * 64 + (b2 - 128) < 57344) then
        some (Char.ofNat ((b - 224) * 4096 + (b1 - 128) * 64 + (b2 - 128)), r)
      else none
    | _ => none
  else if b < 245 then
    match rest with
    | b1 :: b2 :: b3 :: r =>
      if 128 ≤ b1 ∧ b1 < 192 ∧ 128 ≤ b2 ∧ b2 < 192 ∧ 128 ≤ b3 ∧ b3 < 192
          ∧ 65536 ≤ (b - 240) * 262144 + (b1 - 128) * 4096 + (b2 - 128) * 64 + (b3 - 128)
          ∧ (b - 240) * 262144 + (b1 - 128) * 4096 + (b2 - 128) * 64 + (b3 - 128) < 1114112 then
        some (Char.ofNat ((b - 240) * 262144 + (b1 - 128) * 4096 + (b2 - 128) * 64 + (b3 - 128)), r)
      else none
    | _ => none
  else none

/-- The decoding loop of `String::from_utf8`. The fuel argument is a
termination device only: every step consumes at least one byte, so with fuel
at least the list length (as `utf8Decode` supplies) it never runs out. -/
def utf8DecodeLoop : Nat → List Nat → Option (List Char)
  | _, [] => some []
  | 0, _ :: _ => none
  | fuel + 1, b :: rest =>
    match utf8DecodeChar b rest with
    | none => none
    | some (c, r) => (utf8DecodeLoop fuel r).map (fun cs => c :: cs)

/-- UTF-8 decoding of a whole byte list (`String::from_utf8`). -/
def utf8Decode (l : List Nat) : Option (List Char) :=
  utf8DecodeLoop l.length l

/-- `String::from_utf8` on a segment's bytes. -/
def decodeSegment (bytes : List Nat) : Option String :=
  (utf8Decode bytes).map String.mk

/-! ## DNS label (src/core/packets.rs, `DnsLabel`) -/

structure DnsLabel where
  name : List String
  offset : Option Nat
deriving DecidableEq, Repr

/-- The loop body of `DnsLabel::parse`: reads length-prefixed segments from the
chunk until a 0 terminator or a compression pointer (`len & 0xc0 > 0`, i.e.
`64 ≤ len` for a `u8`); returns the segments, the optional 14-bit pointer
offset, and the number of bytes the local cursor consumed. The fuel argument
is a termination device only: every iteration consumes at least one byte, so
with fuel at least the chunk length (as `labelLoop` supplies) it never runs
out. -/
def labelLoopGo : Nat → List Nat → Option (List String × Option Nat × Nat)
  | _, [] => none
  | 0, _ :: _ => none
  | fuel + 1, len :: rest =>
    if len = 0 then some ([], none, 1)
    else if 64 ≤ len then
      match rest.head? with
      | none => none
      | some lo => some ([], some ((len % 64) * 256 + lo), 2)
    else if len ≤ rest.length then
      match decodeSegment (rest.take len) with
      | none => none
      | some s =>
        match labelLoopGo fuel (rest.drop len) with
        | none => none
        | some (name, off, n) => some (s :: name, off, 1 + len + n)
    else none

/-- The loop of `DnsLabel::parse` applied to a chunk. -/
def labelLoop (chunk : List Nat) : Option (List String × Option Nat × Nat) :=
  labelLoopGo chunk.length chunk

/-- `DnsLabel::parse` on a chunk: the parsed label plus the number of bytes
consumed (`cur.position()` which the source then applies via `buf.advance`). -/
def DnsLabel.parse (chunk : List Nat) : Option (DnsLabel × Nat) :=
  match labelLoop chunk with
  | some (name, off, n) => some (⟨name, off⟩, n)
  | none => none

/-- A `bytes::Buf` over `data` whose cursor sits at `pos`. -/
structure BufState where
  data : List Nat
  pos : Nat
deriving DecidableEq, Repr

/-- `DnsLabel::parse` acting on a cursor-carrying buffer: the source parses on
a local `Cursor` over `buf.chunk()` and calls `buf.advance(bytes_read)` only
after every fallible step has succeeded. -/
def DnsLabel.parseSt (b : BufState) : Option DnsLabel × BufState :=
  match DnsLabel.parse (b.data.drop b.pos) with
  | some (l, n) => (some l, ⟨b.data, b.pos + n⟩)
  | none => (none, b)

/-- Result of `DnsLabel::build_string`: `ok` is `Some(joined)`, `parseFail` is
`None` (the inner `DnsLabel::parse` failed), `panicked` is the Rust panic from
the out-of-range slice `&main_buf[offset..]`. -/
inductive BuildResult where
  | ok (s : String)
  | parseFail
  | panicked
deriving DecidableEq, Repr

/-- `DnsLabel::build_string`: appends the segments of a single label parsed at
the recorded pointer offset (one hop, no recursion into `hop.offset`), then
joins with ".". -/
def DnsLabel.buildString (l : DnsLabel) (mainBuf : List Nat) : BuildResult :=
  match l.offset with
  | none => .ok (String.intercalate "." l.name)
  | some off =>
    if off ≤ mainBuf.length then
      match DnsLabel.parse (mainBuf.drop off) with
      | some (hop, _) => .ok (String.intercalate "." (l.name ++ hop.name))
      | none => .parseFail
    else .panicked

/-! ## DNS query / answer / header / frame (src/core/packets.rs) -/

structure DnsQuery where
  name : List String
  qtype : Nat
  qclass : Nat
deriving DecidableEq, Repr

/-- `DnsQuery::parse`. -/
def DnsQuery.parse (chunk : List Nat) : Option (DnsQuery × List Nat) :=
  match DnsLabel.parse chunk with
  | none => none
  | some (label, n) =>
    match getU16 (chunk.drop n) with
    | none => none
    | some (qtype, r1) =>
      match getU16 r1 with
      | none => none
      | some (qclass, r2) => some (⟨label.name, qtype, qclass⟩, r2)

/-- The segment-writing loop of `DnsQuery::write`: for each segment emit
`label.len() as u8` then the raw bytes. -/
def encName (name : List String) : List Nat :=
  (name.map (fun s => (strBytes s).length % 256 :: strBytes s)).flatten

/-- `DnsQuery::write`: for each segment emit `len as u8` then the raw bytes,
terminate with 0, then qtype and qclass. -/
def DnsQuery.write (q : DnsQuery) : List Nat :=
  encName q.name ++ [0] ++ putU16 q.qtype ++ putU16 q.qclass

structure DnsAnswer where
  name : DnsLabel
  record_type : Nat
  class_ : Nat
  ttl : Nat
  data : List Nat
deriving DecidableEq, Repr

/-- `DnsAnswer::parse`: label, type, class, ttl, rdlength, then exactly
rdlength bytes (`try_copy_to_slice` fails when fewer remain). -/
def DnsAnswer.parse (chunk : List Nat) : Option (DnsAnswer × List Nat) :=
  match DnsLabel.parse chunk with
  | none => none
  | some (name, n) =>
    match getU16 (chunk.drop n) with
    | none => none
    | some (record_type, r1) =>
      match getU16 r1 with
      | none => none
      | some (class_, r2) =>
        match getU32 r2 with
        | none => none
        | some (ttl, r3) =>
          match getU16 r3 with
          | none => none
          | some (data_length, r4) =>
            if data_length ≤ r4.length then
              some (⟨name, record_type, class_, ttl, r4.take data_length⟩, r4.drop data_length)
            else none

structure DnsHeader where
  transaction_id : Nat
  flags : Nat
  qdcount : Nat
  ancount : Nat
  nscount : Nat
  arcount : Nat
deriving DecidableEq, Repr

/-- `DnsHeader::parse`. -/
def DnsHeader.parse (chunk : List Nat) : Option (DnsHeader × List Nat) :=
  match getU16 chunk with
  | none => none
  | some (transaction_id, r1) =>
    match getU16 r1 with
    | none => none
    | some (flags, r2) =>
      match getU16 r2 with
      | none => none
      | some (qdcount, r3) =>
        match getU16 r3 with
        | none => none
        | some (ancount, r4) =>
          match getU16 r4 with
          | none => none
          | some (nscount, r5) =>
            match getU16 r5 with
            | none => none
            | some (arcount, r6) =>
              some (⟨transaction_id, flags, qdcount, ancount, nscount, arcount⟩, r6)

/-- `DnsHeader::write`. -/
def DnsHeader.write (h : DnsHeader) : List Nat :=
  putU16 h.transaction_id ++ putU16 h.flags ++ putU16 h.qdcount
    ++ putU16 h.ancount ++ putU16 h.nscount ++ putU16 h.arcount

structure DnsFrame where
  transaction_id : Nat
  flags : Nat
  queries : List DnsQuery
  answers : List DnsAnswer
deriving DecidableEq, Repr

/-- The `for _ in 0..qdcount` loop of `DnsFrame::parse`. -/
def parseQueries : Nat → List Nat → Option (List DnsQuery × List Nat)
  | 0, chunk => some ([], chunk)
  | n + 1, chunk =>
    match DnsQuery.parse chunk with
    | none => none
    | some (q, rest) =>
      match parseQueries n rest with
      | none => none
      | some (qs, rest') => some (q :: qs, rest')

/-- The `for _ in 0..ancount` loop of `DnsFrame::parse`. -/
def parseAnswers : Nat → List Nat → Option (List DnsAnswer × List Nat)
  | 0, chunk => some ([], chunk)
  | n + 1, chunk =>
    match DnsAnswer.parse chunk with
    | none => none
    | some (a, rest) =>
      match parseAnswers n rest with
      | none => none
      | some (as', rest') => some (a :: as', rest')

/-- `DnsFrame::parse`: header, `qdcount` queries, `ancount` answers; the
authority/additional counts are ignored and the rest of the buffer is left
unread. -/
def DnsFrame.parse (chunk : List Nat) : Option (DnsFrame × List Nat) :=
  match DnsHeader.parse chunk with
  | none => none
  | some (header, r1) =>
    match parseQueries header.qdcount r1 with
    | none => none
    | some (queries, r2) =>
      match parseAnswers header.ancount r2 with
      | none => none
      | some (answers, r3) =>
        some (⟨header.transaction_id, header.flags, queries, answers⟩, r3)

/-- `DnsFrame::write`: a header with `qdcount = queries.len() as u16` and all
other counts 0, followed by the queries only — answers are never written. -/
def DnsFrame.write (f : DnsFrame) : List Nat :=
  DnsHeader.write ⟨f.transaction_id, f.flags, f.queries.length % 65536, 0, 0, 0⟩
    ++ (f.queries.map DnsQuery.write).flatten

/-! ## Host-entry callback delivery (src/ffi/mod.rs, `run_ares_host_callback`) -/

/-- Observable outcome of `run_ares_host_callback`: whether the user callback
was invoked (and with which status / whether the hostent pointer was null),
whether the function returned without invoking it (`rcode == 0` and no
answers), or whether it panicked (`.unwrap()` on a failed inner label parse,
out-of-range slice, interior NUL in the name, or an unexpected record type). -/
inductive HostCallbackOutcome where
  | called (status : Nat) (hostentNull : Bool)
  | noCallback
  | panicked
deriving DecidableEq, Repr

/-- The tail of the success path of `run_ares_host_callback` once the answer's
dotted name has been resolved: `CString::new(name).unwrap()` (panics on an
interior NUL), then the `h_addrtype` match (panics unless the record type is
A = 0x01 or AAAA = 0x1c), then the callback with a non-null hostent. -/
def hostSuccessOutcome (name : List String) (record_type : Nat) : HostCallbackOutcome :=
  if (String.intercalate "." name).data.contains (Char.ofNat 0) then .panicked
  else if record_type = 1 ∨ record_type = 28 then .called ARES_SUCCESS false
  else .panicked

/-- `run_ares_host_callback(buf, result, callback, arg)`: a non-zero rcode
(low 4 bits of flags) invokes the callback with `ENOTFOUND` (rcode 3) or
`ESERVFAIL` and a null hostent; otherwise, with no answers, it returns without
calling back; otherwise it resolves the first answer's name (one pointer hop,
`.unwrap()`ed) and calls back with `ARES_SUCCESS` and a non-null hostent. -/
def runAresHostCallback (buf : List Nat) (result : DnsFrame) : HostCallbackOutcome :=
  let reply_code := result.flags % 16
  if reply_code > 0 then
    .called (if reply_code = 3 then ARES_ENOTFOUND else ARES_ESERVFAIL) true
  else
    match result.answers.head? with
    | none => .noCallback
    | some answer =>
      match answer.name.offset with
      | none => hostSuccessOutcome answer.name.name answer.record_type
      | some off =>
        if off ≤ buf.length then
          match DnsLabel.parse (buf.drop off) with
          | some (hop, _) => hostSuccessOutcome (answer.name.name ++ hop.name) answer.record_type
          | none => .panicked
        else .panicked

/-! ## Query engine state machine (src/core/ares.rs, src/ffi/mod.rs) -/

/-- `Status` of a task. -/
inductive Status where
  | Writing
  | Reading
  | Completed
deriving DecidableEq, Repr

/-- The two callback shapes stored in a task's `FFIData`
(`Callback::AresHostCallback` from `ares_gethostbyname`,
`Callback::AresCallback` from `ares_query`). -/
inductive Callback where
  | aresHostCallback
  | aresCallback
deriving DecidableEq, Repr

/-- One observable callback invocation. `errorCb s` is `Callback::run_error`
(status `s`, null hostent / null buffer); `hostCb` is a host-entry callback
delivery; `bufCb` is a raw-buffer (`ares_query`-style) delivery; `panicEvt`
records that the delivery path panicked. -/
inductive CbEvent where
  | errorCb (status : Nat)
  | hostCb (status : Nat) (hostentNull : Bool)
  | bufCb (status : Nat)
  | panicEvt
deriving DecidableEq, Repr

/-- A task together with the per-`ares_process`-call environment: whether its
deadline has passed (`Task::is_expired`), whether its fd is in the caller's
write/read readiness set (`FD_ISSET`), and the datagram `recv_from` would
deliver. The socket, write buffer and user data pointers are abstracted. -/
structure TaskM where
  id : Nat
  status : Status
  callback : Callback
  expired : Bool
  writeReady : Bool
  readReady : Bool
  recvBuf : List Nat
deriving DecidableEq, Repr

/-- `Callback::run`: dispatch of a successfully parsed frame to the task's
callback. The raw-buffer callback (`run_ares_callback`) always fires with
`ARES_SUCCESS`; the host callback runs `run_ares_host_callback`. -/
def Callback.run (cb : Callback) (buf : List Nat) (frame : DnsFrame) : List CbEvent :=
  match cb with
  | .aresHostCallback =>
    match runAresHostCallback buf frame with
    | .called s n => [.hostCb s n]
    | .noCallback => []
    | .panicked => [.panicEvt]
  | .aresCallback => [.bufCb ARES_SUCCESS]

/-- The I/O scan body of `ares_process` for one task: an `FD_ISSET` write hit
runs `write_impl` (status becomes `Reading`); an `FD_ISSET` read hit runs
`read_impl`, which sets the status to `Completed` *before* parsing and
dispatches the callback only when `DnsFrame::parse` succeeds. Neither branch
checks the task's current status first. -/
def ioStep (t : TaskM) : TaskM × List (Nat × CbEvent) :=
  let t1 := if t.writeReady then { t with status := Status.Reading } else t
  if t1.readReady then
    match DnsFrame.parse t1.recvBuf with
    | some (frame, _) =>
      ({ t1 with status := Status.Completed },
        (t1.callback.run t1.recvBuf frame).map (fun e => (t1.id, e)))
    | none => ({ t1 with status := Status.Completed }, [])
  else (t1, [])

/-- `Ares::remove_completed`: `self.tasks.retain(|task| !task.is_expired())` —
it retains the tasks that are *not expired*; the task status is not consulted. -/
def removeCompleted (tasks : List TaskM) : List TaskM :=
  tasks.filter (fun t => ! t.expired)

/-- `ares_process`: first the timeout sweep (every expired task gets
`run_error(ARES_ETIMEOUT)` and becomes `Completed`, regardless of its current
status), then `remove_completed`, then the I/O scan over the remaining tasks
in order. Returns the channel's task list as left behind by the call and the
sequence of callback invocations it made. -/
def aresProcess (tasks : List TaskM) : List TaskM × List (Nat × CbEvent) :=
  let sweepEvents := (tasks.filter (fun t => t.expired)).map
    (fun t => (t.id, CbEvent.errorCb ARES_ETIMEOUT))
  let swept := tasks.map (fun t => if t.expired then { t with status := Status.Completed } else t)
  let kept := removeCompleted swept
  let stepped := kept.map ioStep
  (stepped.map Prod.fst, sweepEvents ++ (stepped.map Prod.snd).flatten)

/-! ## Timeout computation (src/core/ares.rs `Ares::max_wait_time`,
src/ffi/mod.rs `ares_timeout`) -/

/-- `Ares::max_wait_time`:
`self.tasks.iter().map(Task::time_remaining).min().unwrap()` over the tasks'
remaining milliseconds. `none` models the `.unwrap()` panic when the task list
is empty. -/
def maxWaitTime (remaining : List Nat) : Option Nat :=
  remaining.min?

/-- `ares_timeout(channel, _maxtv, tv)`: writes
`tv_sec = ms / 1000, tv_usec = 1000 * (ms % 1000)` from `max_wait_time`; the
caller-supplied maximum `_maxtv` is never read. `none` models the panic
propagated from `max_wait_time` on an empty task list. -/
def aresTimeout (remaining : List Nat) (_maxtv : Nat) : Option (Nat × Nat) :=
  match maxWaitTime remaining with
  | some ms => some (ms / 1000, 1000 * (ms % 1000))
  | none => none

/-! ## Family dispatch of `ares_gethostbyname` (src/ffi/mod.rs) -/

/-- `core::ares::Family`. -/
inductive Family where
  | Ipv4
  | Ipv6
deriving DecidableEq, Repr

/-- The `family` match at the top of `ares_gethostbyname`: `AF_INET` and
`AF_INET6` map to the core `Family`; every other value hits
`panic!("unexpected family value: ...")`, modelled as `none`. -/
def aresGethostbynameFamily (family : Int) : Option Family :=
  if family = AF_INET then some Family.Ipv4
  else if family = AF_INET6 then some Family.Ipv6
  else none

/-! ## Tagged envelope layout (src/ffi/ares_data.rs, src/ffi/offset_of.rs)

`AresData<T>` is `#[repr(C)] { data_type: AresDataType, data: T }`. The C
layout rules on x86-64 Linux (LP64): a field is placed at its predecessor's
end rounded up to the field's alignment; a struct's (or union's) alignment is
the maximum alignment of its fields (members). -/

/-- Round `off` up to a multiple of `a`. -/
def alignUp (off a : Nat) : Nat := (off + a - 1) / a * a

/-- Alignment of a pointer (`*mut T`, `*const c_char`) on LP64. -/
def ptrAlign : Nat := 8
/-- Alignment of `c_int` on LP64. -/
def cIntAlign : Nat := 4
/-- Alignment of `c_ushort` on LP64. -/
def cUshortAlign : Nat := 2
/-- Alignment of `usize` on LP64. -/
def usizeAlign : Nat := 8
/-- Alignment of `libc::in_addr` (one `u32`). -/
def inAddrAlign : Nat := 4
/-- Alignment of `libc::in6_addr`. -/
def in6AddrAlign : Nat := 4

/-- C struct/union alignment: maximum of the member alignments. -/
def structAlign (memberAligns : List Nat) : Nat :=
  memberAligns.foldr Nat.max 1

/-- Size of the `#[repr(C)]` fieldless enum `AresDataType` (a C `int`). -/
def aresDataTypeSize : Nat := 4

/-- Alignment of `AresMxReply { next: *mut _, host: *const c_char, priority: c_ushort }`. -/
def aresMxReplyAlign : Nat := structAlign [ptrAlign, ptrAlign, cUshortAlign]
/-- Alignment of `AresTxtReply { next: *mut _, txt: *const c_char, length: usize }`. -/
def aresTxtReplyAlign : Nat := structAlign [ptrAlign, ptrAlign, usizeAlign]
/-- Alignment of the union `AresAddrUnion { addr4: in_addr, addr6: in6_addr }`. -/
def aresAddrUnionAlign : Nat := structAlign [inAddrAlign, in6AddrAlign]
/-- Alignment of `AresAddrPortNode { next: *mut _, family: c_int, addr: AresAddrUnion, udp_port: c_int, tcp_port: c_int }`. -/
def aresAddrPortNodeAlign : Nat :=
  structAlign [ptrAlign, cIntAlign, aresAddrUnionAlign, cIntAlign, cIntAlign]

/-- `offset_of!(AresData<T>, data)`: the tag sits at offset 0 with size 4, so
the payload lands at 4 rounded up to the payload's alignment. -/
def offsetOfAresData (payloadAlign : Nat) : Nat :=
  alignUp aresDataTypeSize payloadAlign

/-- The three payload types an envelope can carry. -/
inductive PayloadType where
  | mxReply
  | txtReply
  | addrPortNode
deriving DecidableEq, Repr

/-- Alignment of each payload type. -/
def payloadAlign : PayloadType → Nat
  | .mxReply => aresMxReplyAlign
  | .txtReply => aresTxtReplyAlign
  | .addrPortNode => aresAddrPortNodeAlign

/-- Address of the `data` field of an `AresData<T>` envelope allocated at
`envelopeAddr`. -/
def payloadAddr (envelopeAddr : Nat) (t : PayloadType) : Nat :=
  envelopeAddr + offsetOfAresData (payloadAlign t)

/-- `restore_original_ptr`:
`dataptr.byte_sub(offset_of!(AresData<*mut c_void>, data))` — note the offset
is computed once, for the payload type `*mut c_void`. -/
def restoreOriginalPtr (dataptr : Nat) : Nat :=
  dataptr - offsetOfAresData ptrAlign

/-! ## Well-formedness used by the codec round-trip -/

/-- A query that the wire format can represent faithfully: `u16` fields in
range and every name segment non-empty and at most 63 UTF-8 bytes (the DNS
label size limit; a longer or empty segment cannot round-trip because the
length byte would collide with the terminator or the compression-pointer
tag bits). -/
def DnsQuery.wf (q : DnsQuery) : Prop :=
  q.qtype < 65536 ∧ q.qclass < 65536 ∧
    ∀ s ∈ q.name, 1 ≤ (strBytes s).length ∧ (strBytes s).length ≤ 63

/-- A frame that `DnsFrame::write` can represent faithfully: `u16` fields in
range, well-formed queries, and no answers (the serializer writes
`ancount = 0` and never writes the answers section). -/
def DnsFrame.wf (f : DnsFrame) : Prop :=
  f.transaction_id < 65536 ∧ f.flags < 65536 ∧ f.queries.length < 65536 ∧
    f.answers = [] ∧ ∀ q ∈ f.queries, q.wf

/-! # Theorems -/

/-! ## UTF-8 round-trip -/

/-- A `Char`'s scalar value is below the surrogate range or above it. -/
theorem char_toNat_valid (c : Char) :
    c.toNat < 55296 ∨ (57344 ≤ c.toNat ∧ c.toNat < 1114112) := by
  have h := c.valid
  simp only [UInt32.isValidChar, Nat.isValidChar] at h
  simp only [Char.toNat]
  omega

/-- One decoding step recovers an encoded character and returns the tail. -/
theorem utf8DecodeChar_encode (c : Char) (tail : List Nat) :
    ∃ b rest, utf8EncodeCp c.toNat = b :: rest
      ∧ utf8DecodeChar b (rest ++ tail) = some (c, tail) := by
  have hv := char_toNat_valid c
  have hofn : Char.ofNat c.toNat = c := Char.ofNat_toNat c
  set v := c.toNat with hvdef
  by_cases h1 : v < 128
  · refine ⟨v, [], by rw [utf8EncodeCp, if_pos h1], ?_⟩
    simp only [List.nil_append, utf8DecodeChar]
    rw [if_pos h1, hofn]
  · by_cases h2 : v < 2048
    · refine ⟨192 + v / 64, [128 + v % 64], by rw [utf8EncodeCp, if_neg h1, if_pos h2], ?_⟩
      have harith : (192 + v / 64 - 192) * 64 + (128 + v % 64 - 128) = v := by omega
      simp only [utf8DecodeChar, List.cons_append, List.nil_append]
      rw [if_neg (by omega), if_neg (by omega), if_pos (by omega)]
      rw [if_pos (by omega : 128 ≤ 128 + v % 64 ∧ 128 + v % 64 < 192), harith, hofn]
    · by_cases h3 : v < 65536
      · refine ⟨224 + v / 4096, [128 + v / 64 % 64, 128 + v % 64],
          by rw [utf8EncodeCp, if_neg h1, if_neg h2, if_pos h3], ?_⟩
        have harith : (224 + v / 4096 - 224) * 4096
            + (128 + v / 64 % 64 - 128) * 64 + (128 + v % 64 - 128) = v := by omega
        have hsur : ¬ (55296 ≤ v ∧ v < 57344) := by rcases hv with h | h <;> omega
        simp only [utf8DecodeChar, List.cons_append, List.nil_append]
        rw [if_neg (by omega), if_neg (by omega), if_neg (by omega), if_pos (by omega)]
        rw [harith]
        rw [if_pos ⟨by omega, by omega, by omega, by omega, by omega, hsur⟩, hofn]
      · have h4 : v < 1114112 := by rcases hv with h | h <;> omega
        refine ⟨240 + v / 262144, [128 + v / 4096 % 64, 128 + v / 64 % 64, 128 + v % 64],
          by rw [utf8EncodeCp, if_neg h1, if_neg h2, if_neg h3], ?_⟩
        have harith : (240 + v / 262144 - 240) * 262144
            + (128 + v / 4096 % 64 - 128) * 4096
            + (128 + v / 64 % 64 - 128) * 64 + (128 + v % 64 - 128) = v := by omega
        simp only [utf8DecodeChar, List.cons_append, List.nil_append]
        rw [if_neg (by omega), if_neg (by omega), if_neg (by omega),
          if_neg (by omega), if_pos (by omega)]
        rw [harith]
        rw [if_pos ⟨by omega, by omega, by omega, by omega, by omega, by omega,
          by omega, h4⟩, hofn]

/-- The decoding loop recovers one encoded character per unit of fuel. -/
theorem utf8DecodeLoop_encode (c : Char) (tail : List Nat) (fuel : Nat) :
    utf8DecodeLoop (fuel + 1) (utf8EncodeCp c.toNat ++ tail)
      = (utf8DecodeLoop fuel tail).map (fun cs => c :: cs) := by
  obtain ⟨b, rest, henc, hdec⟩ := utf8DecodeChar_encode c tail
  rw [henc, List.cons_append, utf8DecodeLoop, hdec]

/-- The decoding loop inverts the character-wise encoding given enough fuel. -/
theorem utf8DecodeLoop_flat (cs : List Char) (fuel : Nat) (h : cs.length ≤ fuel) :
    utf8DecodeLoop fuel ((cs.map fun c => utf8EncodeCp c.toNat).flatten) = some cs := by
  induction cs generalizing fuel with
  | nil =>
    cases fuel <;> rfl
  | cons c cs ih =>
    obtain ⟨f, rfl⟩ : ∃ f, fuel = f + 1 := by
      cases fuel with
      | zero => simp at h
      | succ f => exact ⟨f, rfl⟩
    rw [List.map_cons, List.flatten_cons, utf8DecodeLoop_encode,
      ih f (by simpa using h)]
    rfl

/-- `String::from_utf8` inverts `String::as_bytes`. -/
theorem decodeSegment_strBytes (s : String) : decodeSegment (strBytes s) = some s := by
  have hlen : s.data.length ≤ (strBytes s).length := by
    unfold strBytes
    induction s.data with
    | nil => simp
    | cons c cs ih =>
      have h1 : 1 ≤ (utf8EncodeCp c.toNat).length := by
        rw [utf8EncodeCp]
        split_ifs <;> simp
      simp only [List.map_cons, List.flatten_cons, List.length_append, List.length_cons]
      omega
  unfold decodeSegment utf8Decode
  show ((utf8DecodeLoop (strBytes s).length
    ((s.data.map fun c => utf8EncodeCp c.toNat).flatten)).map String.mk) = some s
  rw [utf8DecodeLoop_flat s.data _ hlen]
  rfl

/-! ## Wire-format round-trip lemmas -/

/-- The label-parsing loop inverts the segment-writing loop of
`DnsQuery::write` on well-formed names, consuming all the written bytes
including the 0 terminator; holds for any sufficient fuel. -/
theorem labelLoopGo_encName (name : List String)
    (wf : ∀ s ∈ name, 1 ≤ (strBytes s).length ∧ (strBytes s).length ≤ 63)
    (tail : List Nat) : ∀ fuel, name.length < fuel →
    labelLoopGo fuel (encName name ++ 0 :: tail)
      = some (name, none, (encName name).length + 1) := by
  induction name with
  | nil =>
    intro fuel hf
    obtain ⟨f, rfl⟩ : ∃ f, fuel = f + 1 := ⟨fuel - 1, by omega⟩
    show labelLoopGo (f + 1) (0 :: tail) = _
    rw [labelLoopGo, if_pos rfl]
    simp [encName]
  | cons s ns ih =>
    intro fuel hf
    obtain ⟨f, rfl⟩ : ∃ f, fuel = f + 1 := ⟨fuel - 1, by omega⟩
    obtain ⟨h1, h63⟩ := wf s (List.mem_cons_self s ns)
    have hmod : (strBytes s).length % 256 = (strBytes s).length :=
      Nat.mod_eq_of_lt (by omega)
    have hshape : encName (s :: ns) ++ 0 :: tail
        = (strBytes s).length :: (strBytes s ++ (encName ns ++ 0 :: tail)) := by
      simp [encName, hmod, List.append_assoc]
    rw [hshape, labelLoopGo]
    rw [if_neg (by omega), if_neg (by omega),
      if_pos (by simp [List.length_append])]
    rw [List.take_left, decodeSegment_strBytes s, List.drop_left,
      ih (fun t ht => wf t (List.mem_cons_of_mem s ht)) f (by simp at hf; omega)]
    simp only [encName, List.map_cons, List.flatten_cons, List.cons_append,
      List.length_append, List.length_cons, hmod, Option.some.injEq, Prod.mk.injEq]
    refine ⟨by trivial, by trivial, by omega⟩

/-- Each name segment contributes at least one byte to the wire encoding. -/
theorem length_le_encName (name : List String) :
    name.length ≤ (encName name).length := by
  induction name with
  | nil => simp [encName]
  | cons s ns ih =>
    simp only [encName, List.map_cons, List.flatten_cons, List.length_append,
      List.length_cons] at ih ⊢
    omega

/-- The label-parsing loop inverts the segment-writing loop of
`DnsQuery::write` on well-formed names. -/
theorem labelLoop_encName (name : List String) (tail : List Nat)
    (wf : ∀ s ∈ name, 1 ≤ (strBytes s).length ∧ (strBytes s).length ≤ 63) :
    labelLoop (encName name ++ 0 :: tail)
      = some (name, none, (encName name).length + 1) := by
  have hlen : name.length < (encName name ++ 0 :: tail).length := by
    have := length_le_encName name
    simp only [List.length_append, List.length_cons]
    omega
  exact labelLoopGo_encName name wf tail _ hlen

/-- `DnsLabel::parse` inverts the name-writing loop on well-formed names. -/
theorem dnsLabelParse_encName (name : List String) (tail : List Nat)
    (wf : ∀ s ∈ name, 1 ≤ (strBytes s).length ∧ (strBytes s).length ≤ 63) :
    DnsLabel.parse (encName name ++ 0 :: tail)
      = some (⟨name, none⟩, (encName name).length + 1) := by
  rw [DnsLabel.parse, labelLoop_encName name tail wf]

/-- Reading back a written big-endian `u16`. -/
theorem getU16_putU16 (v : Nat) (h : v < 65536) (tail : List Nat) :
    getU16 (putU16 v ++ tail) = some (v, tail) := by
  have : v / 256 % 256 * 256 + v % 256 = v := by omega
  simp only [putU16, List.cons_append, List.nil_append, getU16, this]

/-- `DnsHeader::parse` inverts `DnsHeader::write` when all fields are `u16`s. -/
theorem dnsHeaderParse_write (h : DnsHeader) (tail : List Nat)
    (h1 : h.transaction_id < 65536) (h2 : h.flags < 65536) (h3 : h.qdcount < 65536)
    (h4 : h.ancount < 65536) (h5 : h.nscount < 65536) (h6 : h.arcount < 65536) :
    DnsHeader.parse (h.write ++ tail) = some (h, tail) := by
  simp only [DnsHeader.write, DnsHeader.parse, List.append_assoc,
    getU16_putU16 h.transaction_id h1, getU16_putU16 h.flags h2,
    getU16_putU16 h.qdcount h3, getU16_putU16 h.ancount h4,
    getU16_putU16 h.nscount h5, getU16_putU16 h.arcount h6]

/-- `DnsQuery::parse` inverts `DnsQuery::write` on well-formed queries. -/
theorem dnsQueryParse_write (q : DnsQuery) (tail : List Nat) (hq : q.wf) :
    DnsQuery.parse (q.write ++ tail) = some (q, tail) := by
  obtain ⟨ht, hc, hn⟩ := hq
  have hshape : q.write ++ tail
      = encName q.name ++ 0 :: (putU16 q.qtype ++ (putU16 q.qclass ++ tail)) := by
    simp [DnsQuery.write, List.append_assoc]
  have hdrop : (encName q.name ++ 0 :: (putU16 q.qtype ++ (putU16 q.qclass ++ tail))).drop
      ((encName q.name).length + 1) = putU16 q.qtype ++ (putU16 q.qclass ++ tail) := by
    rw [show (encName q.name).length + 1 = (encName q.name ++ [0]).length by simp]
    rw [show encName q.name ++ 0 :: (putU16 q.qtype ++ (putU16 q.qclass ++ tail))
      = (encName q.name ++ [0]) ++ (putU16 q.qtype ++ (putU16 q.qclass ++ tail)) by simp]
    exact List.drop_left _ _
  have hlabel := dnsLabelParse_encName q.name
    (putU16 q.qtype ++ (putU16 q.qclass ++ tail)) hn
  rw [hshape]
  simp only [DnsQuery.parse, hlabel, hdrop, getU16_putU16 q.qtype ht,
    getU16_putU16 q.qclass hc]

/-- The query loop of `DnsFrame::parse` inverts the query loop of
`DnsFrame::write`. -/
theorem parseQueries_write (qs : List DnsQuery) (tail : List Nat)
    (hqs : ∀ q ∈ qs, q.wf) :
    parseQueries qs.length ((qs.map DnsQuery.write).flatten ++ tail)
      = some (qs, tail) := by
  induction qs with
  | nil => rfl
  | cons q qs ih =>
    have hq := dnsQueryParse_write q ((qs.map DnsQuery.write).flatten ++ tail)
      (hqs q (List.mem_cons_self q qs))
    simp only [List.length_cons, List.map_cons, List.flatten_cons, List.append_assoc,
      parseQueries, hq, ih (fun t ht => hqs t (List.mem_cons_of_mem q ht))]

/-! ## Claims -/

/-- C6 (amended): for every frame with in-range `u16` fields, well-formed
query names (segments non-empty and at most 63 bytes) and an empty answers
list, parsing the serialized bytes yields exactly the frame back (and consumes
the whole buffer). The answers restriction is forced:
`frame_roundtrip_drops_answers` shows a frame with an answer does not
round-trip, because `DnsFrame::write` emits `ancount = 0` and never writes the
answers section. -/
theorem frame_parse_write_roundtrip (f : DnsFrame) (h : f.wf) :
    DnsFrame.parse f.write = some (f, []) := by
  obtain ⟨tid, fl, qs, ans⟩ := f
  obtain ⟨h1, h2, h3, hans, hqs⟩ := h
  simp only at h1 h2 h3 hans hqs
  subst hans
  have hqd : qs.length % 65536 = qs.length := Nat.mod_eq_of_lt h3
  have hhdr := dnsHeaderParse_write ⟨tid, fl, qs.length % 65536, 0, 0, 0⟩
    ((qs.map DnsQuery.write).flatten) h1 h2 (Nat.mod_lt _ (by omega))
    (by simp) (by simp) (by simp)
  have hq : parseQueries qs.length ((qs.map DnsQuery.write).flatten)
      = some (qs, []) := by
    have := parseQueries_write qs [] hqs
    simpa using this
  rw [hqd] at hhdr
  simp only [DnsFrame.write, DnsFrame.parse, hqd, hhdr, hq, parseAnswers]

/-- C6 (counterexample to the claim as stated): a well-formed frame carrying
one answer does not survive `parse ∘ serialize` — the serializer drops the
answers section, so the reparsed frame has `answers = []` and differs from the
original. -/
theorem frame_roundtrip_drops_answers :
    DnsFrame.parse (DnsFrame.write ⟨0, 0, [], [⟨⟨[], none⟩, 1, 1, 300, [1, 2, 3, 4]⟩]⟩)
        = some (⟨0, 0, [], []⟩, [])
      ∧ (⟨0, 0, [], []⟩ : DnsFrame) ≠ ⟨0, 0, [], [⟨⟨[], none⟩, 1, 1, 300, [1, 2, 3, 4]⟩]⟩ := by
  constructor
  · rfl
  · decide

/-- C6 (witness): the round-trip theorem applied to a concrete well-formed
frame with one query and no answers. -/
theorem frame_parse_write_roundtrip_witness :
    DnsFrame.parse (DnsFrame.write ⟨35440, 256, [⟨[], 1, 1⟩], []⟩)
      = some (⟨35440, 256, [⟨[], 1, 1⟩], []⟩, []) :=
  frame_parse_write_roundtrip ⟨35440, 256, [⟨[], 1, 1⟩], []⟩
    (by refine ⟨by decide, by decide, by decide, rfl, ?_⟩
        intro q hq
        simp only [List.mem_singleton] at hq
        subst hq
        exact ⟨by decide, by decide, by intro s hs; simp at hs⟩)

/-- A successful run of the label-parsing loop consumes at least one byte
(the terminator, a pointer, or a length byte plus its segment). -/
theorem labelLoopGo_consumes (fuel : Nat) (chunk : List Nat) (nm : List String)
    (off : Option Nat) (n : Nat) (h : labelLoopGo fuel chunk = some (nm, off, n)) :
    1 ≤ n := by
  cases chunk with
  | nil => simp [labelLoopGo] at h
  | cons len rest =>
    cases fuel with
    | zero => simp [labelLoopGo] at h
    | succ f =>
      rw [labelLoopGo] at h
      split_ifs at h with h0 h64 hlen
      · simp only [Option.some.injEq, Prod.mk.injEq] at h
        omega
      · rcases hh : rest.head? with _ | lo <;> rw [hh] at h
        · simp at h
        · simp only [Option.some.injEq, Prod.mk.injEq] at h
          omega
      · rcases hd : decodeSegment (rest.take len) with _ | s <;> rw [hd] at h
        · simp at h
        · rcases hl : labelLoopGo f (rest.drop len) with _ | ⟨nm2, off2, n2⟩ <;>
            rw [hl] at h
          · simp at h
          · simp only [Option.some.injEq, Prod.mk.injEq] at h
            omega

/-- A successful `DnsLabel::parse` consumes at least one byte. -/
theorem dnsLabelParse_consumes (chunk : List Nat) (l : DnsLabel) (n : Nat)
    (h : DnsLabel.parse chunk = some (l, n)) : 1 ≤ n := by
  rw [DnsLabel.parse] at h
  rcases hl : labelLoop chunk with _ | ⟨nm, off, m⟩ <;> rw [hl] at h
  · simp at h
  · simp only [Option.some.injEq, Prod.mk.injEq] at h
    rw [labelLoop] at hl
    exact h.2 ▸ labelLoopGo_consumes _ _ _ _ _ hl

/-- C5: `DnsLabel::parse` moves the buffer cursor only on success — on every
parse failure the cursor is exactly where it was before the call, and on
success the data is untouched and the cursor strictly advances. -/
theorem label_parse_cursor_discipline (b : BufState) :
    ((DnsLabel.parseSt b).1 = none → (DnsLabel.parseSt b).2 = b)
      ∧ ((DnsLabel.parseSt b).1.isSome = true →
          (DnsLabel.parseSt b).2.data = b.data ∧ b.pos < (DnsLabel.parseSt b).2.pos) := by
  rcases hp : DnsLabel.parse (b.data.drop b.pos) with _ | ⟨l, n⟩
  · constructor
    · intro _
      simp [DnsLabel.parseSt, hp]
    · intro hs
      simp [DnsLabel.parseSt, hp] at hs
  · have hn : 1 ≤ n := dnsLabelParse_consumes _ _ _ hp
    constructor
    · intro hnone
      simp [DnsLabel.parseSt, hp] at hnone
    · intro _
      simp [DnsLabel.parseSt, hp]
      omega

/-- C5 (witness): the truncated-segment input `06 67` fails to parse and the
cursor of the buffer is left at position 0. -/
theorem label_parse_cursor_discipline_witness :
    (DnsLabel.parseSt ⟨[6, 103], 0⟩).2 = ⟨[6, 103], 0⟩ :=
  (label_parse_cursor_discipline ⟨[6, 103], 0⟩).1 (by decide)

/-- C4 (amended): `build_string` follows at most one compression-pointer hop:
with no offset it joins the label's own segments; with an in-range offset it
parses a single label at that offset and appends that label's segments — the
result does not depend on whether the hop label itself records a further
pointer, so there is no recursion and no segment limit. In particular,
resolution of a cyclic message terminates after the single hop and returns
success (`.ok`), not a parse failure. -/
theorem build_string_single_hop (l : DnsLabel) (mainBuf : List Nat) :
    (l.offset = none → l.buildString mainBuf = .ok (String.intercalate "." l.name))
      ∧ (∀ off hop n, l.offset = some off → off ≤ mainBuf.length →
          DnsLabel.parse (mainBuf.drop off) = some (hop, n) →
          l.buildString mainBuf
            = .ok (String.intercalate "." (l.name ++ hop.name))) := by
  constructor
  · intro h
    simp [DnsLabel.buildString, h]
  · intro off hop n hoff hle hparse
    simp [DnsLabel.buildString, hoff, hle, hparse]

/-- C4 (counterexample): the two-byte message `c0 00` is a label at offset 0
that is a compression pointer back to offset 0 — a pointer cycle. Resolving
it with `build_string` returns success (the empty name) rather than a parse
failure, refuting the claimed ~128-segment cycle guard. -/
theorem build_string_pointer_cycle_ok :
    DnsLabel.parse [192, 0] = some (⟨[], some 0⟩, 2)
      ∧ DnsLabel.buildString ⟨[], some 0⟩ [192, 0] = .ok "" := by decide

/-- C4 (witness): the single-hop theorem applied to the cyclic message. -/
theorem build_string_single_hop_witness :
    DnsLabel.buildString ⟨[], some 0⟩ [192, 0]
      = .ok (String.intercalate "." ([] ++ [])) :=
  (build_string_single_hop ⟨[], some 0⟩ [192, 0]).2 0 ⟨[], some 0⟩ 2
    rfl (by decide) (by decide)

/-- C2: when the received frame's rcode (low 4 bits of flags) is non-zero the
callback is invoked with `ENOTFOUND` for rcode 3 and `ESERVFAIL` otherwise,
and a null hostent pointer; whenever the callback is invoked with
`ARES_SUCCESS` the hostent pointer is non-null. -/
theorem host_callback_rcode_and_null (buf : List Nat) (result : DnsFrame) :
    (result.flags % 16 ≠ 0 →
        runAresHostCallback buf result
          = .called (if result.flags % 16 = 3 then ARES_ENOTFOUND else ARES_ESERVFAIL) true)
      ∧ (∀ hostentNull, runAresHostCallback buf result = .called ARES_SUCCESS hostentNull →
          hostentNull = false) := by
  constructor
  · intro h
    simp only [runAresHostCallback]
    rw [if_pos (by omega)]
  · intro hostentNull hb
    by_cases h : result.flags % 16 > 0
    · simp only [runAresHostCallback, if_pos h] at hb
      split_ifs at hb <;>
        simp [ARES_ENOTFOUND, ARES_ESERVFAIL, ARES_SUCCESS] at hb
    · simp only [runAresHostCallback, if_neg h] at hb
      rcases ha : result.answers.head? with _ | answer <;> simp only [ha] at hb
      · simp at hb
      · rcases ho : answer.name.offset with _ | off <;> simp only [ho] at hb
        · simp only [hostSuccessOutcome] at hb
          split_ifs at hb <;> simp_all
        · split_ifs at hb with hle
          rcases hp : DnsLabel.parse (buf.drop off) with _ | ⟨hop, m⟩ <;>
            simp only [hp] at hb
          · simp at hb
          · simp only [hostSuccessOutcome] at hb
            split_ifs at hb <;> simp_all

/-- C2 (witness): a reply with flags `0x8183` (rcode 3) triggers the callback
with `ENOTFOUND` and a null hostent pointer. -/
theorem host_callback_rcode_witness :
    runAresHostCallback [] ⟨35440, 33155, [], []⟩ = .called ARES_ENOTFOUND true :=
  (host_callback_rcode_and_null [] ⟨35440, 33155, [], []⟩).1 (by decide)

/-- C7 (counterexample): with one task 5000 ms from its deadline and a
caller-supplied maximum of 1000 ms, `ares_timeout` returns 5 s: the
caller-supplied maximum (`_maxtv`) is never read, so the returned value
exceeds it, refuting the clamping part of the claim. -/
theorem ares_timeout_ignores_maxtv :
    aresTimeout [5000] 1000 = some (5, 0) ∧ 1000 < 5000 := by decide

/-- C7 (amended): `ares_timeout` returns exactly the minimum remaining time
across tasks, converted to a `(tv_sec, tv_usec)` pair — hence it never exceeds
any live task's remaining time — and its result is entirely independent of
the caller-supplied maximum, which can therefore be exceeded. -/
theorem ares_timeout_min_remaining (remaining : List Nat) (maxtv m : Nat)
    (h : maxWaitTime remaining = some m) :
    aresTimeout remaining maxtv = some (m / 1000, 1000 * (m % 1000))
      ∧ m ∈ remaining ∧ (∀ x ∈ remaining, m ≤ x)
      ∧ ∀ maxtv', aresTimeout remaining maxtv' = aresTimeout remaining maxtv := by
  have hmin : m ∈ remaining ∧ ∀ x ∈ remaining, m ≤ x := by
    rw [maxWaitTime] at h
    exact (List.min?_eq_some_iff (fun a => Nat.le_refl a)
      (fun a b => min_choice a b) (fun a b c => le_min_iff)).mp h
  refine ⟨by simp [aresTimeout, h], hmin.1, hmin.2, fun maxtv' => rfl⟩

/-- C7 (witness): the amended theorem at a single task 5000 ms out. -/
theorem ares_timeout_min_remaining_witness :
    aresTimeout [5000] 77 = some (5000 / 1000, 1000 * (5000 % 1000))
      ∧ 5000 ∈ [5000] ∧ (∀ x ∈ [5000], 5000 ≤ x)
      ∧ ∀ maxtv', aresTimeout [5000] maxtv' = aresTimeout [5000] 77 :=
  ares_timeout_min_remaining [5000] 77 5000 (by decide)

/-- C10: calling `ares_timeout` on a channel with no tasks panics — the
`min().unwrap()` in `max_wait_time` hits `None`, modelled as `none` — for
every caller-supplied maximum, instead of returning that maximum; with at
least one task it returns normally. -/
theorem ares_timeout_empty_panics :
    (∀ maxtv, aresTimeout [] maxtv = none)
      ∧ ∀ remaining, remaining ≠ [] →
          ∀ maxtv, (aresTimeout remaining maxtv).isSome = true := by
  refine ⟨fun _ => rfl, fun remaining hne maxtv => ?_⟩
  cases remaining with
  | nil => exact absurd rfl hne
  | cons a l => simp [aresTimeout, maxWaitTime, List.min?]

/-- C10 (witness): the empty channel panics (`none`) while a one-task channel
returns normally. -/
theorem ares_timeout_empty_panics_witness :
    aresTimeout [] 7 = none ∧ (aresTimeout [5] 7).isSome = true :=
  ⟨ares_timeout_empty_panics.1 7, ares_timeout_empty_panics.2 [5] (by decide) 7⟩

/-- C8: the family match in `ares_gethostbyname` maps `AF_INET`/`AF_INET6` to
the core family and hits `panic!("unexpected family value")` — modelled as
`none` — for every other value, e.g. family 0 (`AF_UNSPEC`); it never returns
`EBADFAMILY` (the function has no status return at all). -/
theorem gethostbyname_bad_family_panics :
    aresGethostbynameFamily 0 = none
      ∧ aresGethostbynameFamily AF_INET = some Family.Ipv4
      ∧ aresGethostbynameFamily AF_INET6 = some Family.Ipv6 := by
  refine ⟨rfl, rfl, rfl⟩

/-- C9: for every payload type in {MxReply, TxtReply, AddrPortNode} and every
envelope address, adding the payload's compile-time offset and subtracting the
offset used by `restore_original_ptr` (computed once, for `*mut c_void`)
yields the envelope address back: all three payloads have alignment 8 on
LP64, so all the offsets coincide at `align_up(4, 8) = 8`. -/
theorem restore_original_ptr_identity (t : PayloadType) (a : Nat) :
    restoreOriginalPtr (payloadAddr a t) = a := by
  cases t <;>
    simp [restoreOriginalPtr, payloadAddr, offsetOfAresData, alignUp,
      payloadAlign, aresMxReplyAlign, aresTxtReplyAlign, aresAddrPortNodeAlign,
      aresAddrUnionAlign, structAlign, ptrAlign, cIntAlign, cUshortAlign,
      usizeAlign, inAddrAlign, in6AddrAlign, aresDataTypeSize]

/-- C1: a task that already completed successfully receives a second callback.
Trace: a `Reading` task with a readable fd receives a valid reply during one
`ares_process` call — the raw callback fires with `ARES_SUCCESS` and the task
is left in the list with status `Completed` (`remove_completed` only removes
*expired* tasks). On the next `ares_process` call after the deadline passed,
the timeout sweep fires `ARES_ETIMEOUT` for the same task: two callbacks for
one submitted task. -/
theorem process_double_callback_trace :
    (aresProcess [⟨0, Status.Reading, Callback.aresCallback, false, false, true,
        List.replicate 12 0⟩]).2 = [(0, CbEvent.bufCb ARES_SUCCESS)]
      ∧ aresProcess ((aresProcess [⟨0, Status.Reading, Callback.aresCallback, false, false,
            true, List.replicate 12 0⟩]).1.map
              (fun t => { t with expired := true, readReady := false }))
          = ([], [(0, CbEvent.errorCb ARES_ETIMEOUT)]) := by
  decide

/-- C3: after a single `ares_process` call in which a `Reading` task with a
readable fd receives a valid reply, the task remains in the channel's list
with status `Completed` — the sweep runs only at the start of the call and
`remove_completed` filters on expiry, not on status. -/
theorem process_leaves_completed_task :
    ((aresProcess [⟨1, Status.Reading, Callback.aresCallback, false, false, true,
        List.replicate 12 0⟩]).1.map TaskM.status) = [Status.Completed] := by
  decide

end CaresRs
